import Mathlib

/-!
Verification of the interactive view-state machine of the
AzureDevopsTerminalDashboard repository (Go, bubbletea TUI).

The repository contains two iterations of the dashboard UI:
* the current iteration: `Model` / `Model.Update` / `Model.handleEnter`
  (internal/ui/model.go), the command constructors `loadData`,
  `loadPRFiles`, `loadFileDiff`, `loadBuildLogs` (internal/ui/commands.go)
  and the list plumbing `updateLists` / `updateFileList`
  (internal/ui/items helpers) — embedded below in namespace `Dash`;
* a legacy iteration with an explicit `selectedIndex` cursor
  (ui/model.go of the old tree, together with models/pipeline.go) —
  embedded below in namespace `Legacy`;
* the unified-diff construction of `Client.GetPRFileDiff`
  (internal/ui/items.go) — embedded below in namespace `DiffGen`.

Modelling conventions:
* Go machine integers are modelled as `Int` (no overflow is reachable at
  the magnitudes involved); Go time instants and durations are `Int`
  nanoseconds, and `time.Now()` at message-processing time is an explicit
  `now` argument of the step function.
* Go strings are `String`; `strings.Split` on a one-character separator is
  re-implemented structurally as `goSplit` so that concrete evaluation
  reduces (same semantics: splitting the empty string yields `[""]`).
* The bubbles list/viewport widgets are external library state.  Their
  cursors (`list.Index()`) are tracked as plain `Int` fields of the model;
  the trailing `m.xxx.Update(msg)` dispatch of the Go `Update` function,
  which can only move those cursors / scroll offsets and emit a
  widget-internal command, is modelled by an arbitrary `Ext` parameter.
  Viewport text contents (`SetContent`) are not tracked; the fields the
  repository code itself owns (`currentDiff`, `currentFilePath`,
  `buildLogs`) are.
* The HTTP client is an external collaborator; `loadData` is embedded as a
  pure function of the per-pair fetch results.
-/

/-- Go `strings.Split` on a single-character separator, over `List Char`.
`strings.Split("", sep) = [""]`, and a trailing separator produces a
trailing empty segment, exactly as in Go. -/
def splitChars (sep : Char) : List Char → List (List Char)
  | [] => [[]]
  | c :: cs =>
    if c = sep then [] :: splitChars sep cs
    else
      match splitChars sep cs with
      | [] => [[c]]
      | h :: t => (c :: h) :: t

/-- Go `strings.Split` on a single-character separator, over `String`. -/
def goSplit (sep : Char) (s : String) : List String :=
  (splitChars sep s.data).map String.mk

/-- `goSplit` never returns the empty list (Go `strings.Split` always
returns at least one element). -/
theorem splitChars_ne_nil (sep : Char) (l : List Char) : splitChars sep l ≠ [] := by
  induction l with
  | nil => simp [splitChars]
  | cons c cs ih =>
    simp only [splitChars]
    split
    · simp
    · match h : splitChars sep cs with
      | [] => exact absurd h ih
      | x :: xs => simp

theorem goSplit_ne_nil (sep : Char) (s : String) : goSplit sep s ≠ [] := by
  simpa [goSplit] using splitChars_ne_nil sep s.data

namespace Dash

/-- The five views of the current-iteration state machine
(`View` constants in internal/ui/model.go). -/
inductive View where
  | dashboard
  | prDetails
  | prFiles
  | fileDiff
  | buildLogs
deriving DecidableEq, Repr

/-- The state-machine-relevant fields of `azuredevops.PullRequest`.
`project` and `repo` flatten `pr.Repository.Project.Name` and
`pr.Repository.Name`; fields never consulted by the state machine
(description, timestamps, branches, author, draft flag) are omitted. -/
structure PullRequest where
  id : Int
  title : String
  project : String
  repo : String
deriving DecidableEq, Repr, Inhabited

/-- The state-machine-relevant fields of `azuredevops.Build`. -/
structure Build where
  id : Int
  buildNumber : String
deriving DecidableEq, Repr, Inhabited

/-- A `(project, repository)` pull-request pair of the configuration. -/
structure PRPairConfig where
  project : String
  repository : String
deriving DecidableEq, Repr

/-- A `(project, pipeline)` pair of the configuration; `definitionID > 0`
selects the pipeline by numeric id instead of by name. -/
structure PipelineConfig where
  project : String
  pipeline : String
  definitionID : Int
deriving DecidableEq, Repr

/-- The configuration fields consumed by the state machine. -/
structure Config where
  organization : String
  pullRequests : List PRPairConfig
  pipelines : List PipelineConfig
  refreshInterval : Int
deriving Repr

/-- Messages of the bubbletea message loop (`TickMsg`, `DataLoadedMsg`,
`FilesLoadedMsg`, `DiffLoadedMsg`, `LogsLoadedMsg`, key presses and window
resizes).  Completion payloads mirror the Go structs; a Go `error` is an
`Option String`. -/
inductive Msg where
  | key (s : String)
  | tick
  | windowSize (w h : Int)
  | dataLoaded (pullRequests : List PullRequest) (builds : List Build) (err : Option String)
  | filesLoaded (files : List String) (err : Option String)
  | diffLoaded (diff : String) (filePath : String) (err : Option String)
  | logsLoaded (logs : String) (err : Option String)
deriving DecidableEq, Repr

/-- The commands the state machine can issue (`tea.Cmd` values).  `comp`
stands for a command returned by an external bubbles widget from the
trailing dispatch of `Update`; it is distinct from every fetch command. -/
inductive Cmd where
  | loadData
  | tick
  | quit
  | loadPRFiles (project repo : String) (prId : Int)
  | loadFileDiff (project repo : String) (prId : Int) (filePath : String)
  | loadBuildLogs (buildId : Int)
  | openBuildURL
  | openPRURL
  | clonePRRepo
  | comp
deriving DecidableEq, Repr

/-- The application state (`Model` in internal/ui/model.go).  `prIndex`,
`buildIndex`, `fileIndex` are the externally-owned bubbles list cursors
(`m.prList.Index()` etc.); `prItems`, `buildItems` and `fileItems` are the
item slices installed by `updateLists` / `updateFileList` (an item wraps
exactly one element of the corresponding data slice, so they are stored as
the underlying data).  Viewport contents are external and untracked. -/
structure Model where
  view : View
  activeTab : Int
  pullRequests : List PullRequest
  builds : List Build
  prFiles : List String
  prItems : List PullRequest
  buildItems : List Build
  fileItems : List String
  prIndex : Int
  buildIndex : Int
  fileIndex : Int
  selectedPR : Option PullRequest
  selectedBuild : Option Build
  currentDiff : String
  currentFilePath : String
  buildLogs : String
  loading : Bool
  loadingLogs : Bool
  err : Option String
  lastUpdate : Int
  autoRefresh : Bool
  refreshInterval : Int
  width : Int
  height : Int
deriving Repr

/-- `NewModel`: initial state (empty collections, Dashboard view, PR tab,
`loading = true`, `autoRefresh = true`). -/
def initialModel (cfg : Config) : Model where
  view := .dashboard
  activeTab := 0
  pullRequests := []
  builds := []
  prFiles := []
  prItems := []
  buildItems := []
  fileItems := []
  prIndex := 0
  buildIndex := 0
  fileIndex := 0
  selectedPR := none
  selectedBuild := none
  currentDiff := ""
  currentFilePath := ""
  buildLogs := ""
  loading := true
  loadingLogs := false
  err := none
  lastUpdate := 0
  autoRefresh := true
  refreshInterval := cfg.refreshInterval * 1000000000
  width := 0
  height := 0

/-- The behaviour of the external bubbles widgets under the trailing
`m.xxx.Update(msg)` dispatch of `Update`: given the focused view, the
active tab and the message, it may move the three list cursors and may
return one widget-internal command (`Bool` = whether a command was
returned).  The repository code never constrains this function. -/
structure Ext where
  upd : View → Int → Msg → Int × Int × Int → (Int × Int × Int) × Bool

/-- The trivial external behaviour: cursors unchanged, no command. -/
def Ext.id : Ext := ⟨fun _ _ _ idx => (idx, false)⟩

/-- The trailing phase of `Update`: dispatch the message to the component
focused by the (new) view, then batch its command after `cmds`. -/
def compPhase (ext : Ext) (msg : Msg) (m : Model) (cmds : List Cmd) : Model × List Cmd :=
  let r := ext.upd m.view m.activeTab msg (m.prIndex, m.buildIndex, m.fileIndex)
  ({ m with prIndex := r.1.1, buildIndex := r.1.2.1, fileIndex := r.1.2.2 },
   cmds ++ if r.2 then [Cmd.comp] else [])

/-- `updateLists` (internal/ui/items helpers): rebuild the PR and build
list items from the current data slices. -/
def updateLists (m : Model) : Model :=
  { m with prItems := m.pullRequests, buildItems := m.builds }

/-- `updateFileList`: rebuild the changed-file list items. -/
def updateFileList (m : Model) : Model :=
  { m with fileItems := m.prFiles }

/-- `Model.handleEnter` (internal/ui/model.go): the confirm transition.
Selection-dependent branches guard `idx >= 0 && idx < len(list)` before
indexing; when a guard fails the function falls through to
`return m, nil`. -/
def Model.handleEnter (m : Model) : Model × List Cmd :=
  match m.view with
  | .dashboard =>
    if m.activeTab = 0 ∧ m.pullRequests.length > 0 then
      let idx := m.prIndex
      if 0 ≤ idx ∧ idx < (m.pullRequests.length : Int) then
        let pr := m.pullRequests.getD idx.toNat default
        ({ m with selectedPR := some pr, view := .prDetails }, [])
      else (m, [])
    else if m.activeTab = 1 ∧ m.builds.length > 0 then
      let idx := m.buildIndex
      if 0 ≤ idx ∧ idx < (m.builds.length : Int) then
        let b := m.builds.getD idx.toNat default
        ({ m with selectedBuild := some b, loadingLogs := true }, [Cmd.loadBuildLogs b.id])
      else (m, [])
    else (m, [])
  | .prDetails =>
    match m.selectedPR with
    | some pr => (m, [Cmd.loadPRFiles pr.project pr.repo pr.id])
    | none => (m, [])
  | .prFiles =>
    if m.prFiles.length > 0 then
      let idx := m.fileIndex
      if 0 ≤ idx ∧ idx < (m.prFiles.length : Int) then
        match m.selectedPR with
        | some pr =>
          let filePath := m.prFiles.getD idx.toNat ""
          (m, [Cmd.loadFileDiff pr.project pr.repo pr.id filePath])
        | none => (m, [])
      else (m, [])
    else (m, [])
  | _ => (m, [])

/-- The back-navigation branch of `Update` (keys `h` / `left`): each
non-Dashboard view steps to its parent and the displayed error is
cleared; on the Dashboard the branch is a no-op. -/
def backNav (m : Model) : Model :=
  match m.view with
  | .prDetails => { m with view := .dashboard, err := none }
  | .prFiles => { m with view := .prDetails, err := none }
  | .fileDiff => { m with view := .prFiles, err := none }
  | .buildLogs => { m with view := .dashboard, err := none }
  | .dashboard => m

/-- `Model.Update` (internal/ui/model.go).  `now` is the wall clock at
message-processing time (`time.Now()` / `time.Since`).  Branches that
`return` in Go skip the trailing component dispatch; all others run
`compPhase`. -/
def Model.update (ext : Ext) (now : Int) (msg : Msg) (m : Model) : Model × List Cmd :=
  match msg with
  | .windowSize w h =>
    -- updateSizes() only resizes the external widgets.
    compPhase ext msg { m with width := w, height := h } []
  | .key s =>
    if s = "ctrl+c" ∨ s = "q" then (m, [Cmd.quit])
    else if s = "r" then ({ m with loading := true }, [Cmd.loadData])
    else if s = "tab" then
      compPhase ext msg
        (if m.view = .dashboard then { m with activeTab := (m.activeTab + 1) % 2 } else m) []
    else if s = "enter" then m.handleEnter
    else if s = "h" ∨ s = "left" then compPhase ext msg (backNav m) []
    else if s = "g" then
      if m.view = .buildLogs ∧ m.selectedBuild ≠ none then (m, [Cmd.openBuildURL])
      else if m.view = .prDetails ∧ m.selectedPR ≠ none then (m, [Cmd.openPRURL])
      else compPhase ext msg m []
    else if s = "c" then
      if m.view = .prDetails ∧ m.selectedPR ≠ none then (m, [Cmd.clonePRRepo])
      else compPhase ext msg m []
    else compPhase ext msg m []
  | .tick =>
    let cmds :=
      (if m.autoRefresh ∧ now - m.lastUpdate ≥ m.refreshInterval then [Cmd.loadData] else [])
        ++ [Cmd.tick]
    compPhase ext msg m cmds
  | .dataLoaded prs builds err =>
    let m1 := { m with loading := false, lastUpdate := now }
    let m2 :=
      match err with
      | some e => { m1 with err := some e }
      | none => updateLists { m1 with pullRequests := prs, builds := builds }
    compPhase ext msg m2 []
  | .filesLoaded files err =>
    let m2 :=
      match err with
      | some e => { m with err := some e, view := .prFiles }
      | none => updateFileList { m with err := none, prFiles := files, view := .prFiles }
    compPhase ext msg m2 []
  | .diffLoaded diff filePath err =>
    let m2 :=
      match err with
      | some e => { m with err := some e }  -- stay on the current view
      | none =>
        { m with err := none, currentDiff := diff, currentFilePath := filePath,
                 view := .fileDiff }
    compPhase ext msg m2 []
  | .logsLoaded logs err =>
    let m1 := { m with loadingLogs := false }
    let m2 :=
      match err with
      | some e => { m1 with err := some e }
      | none => { m1 with buildLogs := logs, view := .buildLogs }
    compPhase ext msg m2 []

/-- The error string `fmt.Errorf("failed to load PRs for %s/%s: %w", ...)`
attached to a failing pull-request pair. -/
def prPairError (c : PRPairConfig) (cause : String) : String :=
  "failed to load PRs for " ++ c.project ++ "/" ++ c.repository ++ ": " ++ cause

/-- The identifier used for a pipeline pair in its error message:
`"ID:<n>"` when a numeric definition id is configured, else the name. -/
def pipelineIdentifier (c : PipelineConfig) : String :=
  if c.definitionID > 0 then "ID:" ++ toString c.definitionID else c.pipeline

/-- The error string attached to a failing pipeline pair. -/
def buildPairError (c : PipelineConfig) (cause : String) : String :=
  "failed to load builds for " ++ c.project ++ "/" ++ pipelineIdentifier c ++ ": " ++ cause

/-- The body of each fetch loop of `loadData`: on failure keep the
accumulated successes and overwrite `lastErr` with this pair's formatted
error; on success append the fetched records. -/
def fetchStep (mkErr : α → String → String) (get : α → Except String (List β))
    (acc : List β × Option String) (c : α) : List β × Option String :=
  match get c with
  | .error e => (acc.1, some (mkErr c e))
  | .ok bs => (acc.1 ++ bs, acc.2)

/-- `loadData` (internal/ui/commands.go): iterate every configured
pull-request pair and then every pipeline pair, appending the successes
and assigning `lastErr` on each failure (each failure overwrites the
previous `lastErr`; a failure does not abort the remaining pairs).  The
external HTTP client is the pair of fetch functions.  Returns the payload
of the resulting `DataLoadedMsg`. -/
def loadData (cfg : Config)
    (getPullRequests : PRPairConfig → Except String (List PullRequest))
    (getBuilds : PipelineConfig → Except String (List Build)) :
    List PullRequest × List Build × Option String :=
  let prStep := cfg.pullRequests.foldl (fetchStep prPairError getPullRequests) ([], none)
  let buildStep := cfg.pipelines.foldl (fetchStep buildPairError getBuilds) ([], prStep.2)
  (prStep.1, buildStep.1, buildStep.2)

/-- The `DataLoadedMsg` produced by a completed `loadData` command. -/
def loadDataMsg (cfg : Config)
    (getPullRequests : PRPairConfig → Except String (List PullRequest))
    (getBuilds : PipelineConfig → Except String (List Build)) : Msg :=
  let r := loadData cfg getPullRequests getBuilds
  .dataLoaded r.1 r.2.1 r.2.2

end Dash

namespace Legacy

/-!
The legacy iteration: ui/model.go of the old tree (explicit
`selectedIndex` cursor over the pipeline list) together with
models/pipeline.go.  Its `Update` has no trailing widget dispatch; the
viewport is only scrolled, which is not tracked.
-/

/-- The two views of the legacy model. -/
inductive LView where
  | pipelineList
  | pipelineDetail
deriving DecidableEq, Repr

/-- `models.Pipeline` (models/pipeline.go); timestamps are `Option Int`
nanoseconds (Go `*time.Time`). -/
structure Pipeline where
  id : Int
  number : String
  status : String
  result : String
  definition : String
  sourceBranch : String
  requestedBy : String
  startTime : Option Int
  finishTime : Option Int
  queueTime : Option Int
deriving DecidableEq, Repr, Inhabited

/-- `models.StageInfo` (job details elided to the fields the state
machine stores). -/
structure StageInfo where
  name : String
  state : String
  result : String
deriving DecidableEq, Repr

/-- The legacy `Model`. -/
structure LModel where
  pipelines : List Pipeline
  selectedIndex : Int
  currentView : LView
  selectedPipeline : Option Pipeline
  stages : List StageInfo
  logs : String
  width : Int
  height : Int
  loading : Bool
  err : Option String
  autoRefresh : Bool
deriving Repr

/-- Legacy `NewModel`. -/
def initialLModel : LModel where
  pipelines := []
  selectedIndex := 0
  currentView := .pipelineList
  selectedPipeline := none
  stages := []
  logs := ""
  width := 0
  height := 0
  loading := true
  err := none
  autoRefresh := true

/-- Legacy messages (`pipelinesLoadedMsg`, `pipelineDetailLoadedMsg`,
`tickMsg`, key presses, window resizes). -/
inductive LMsg where
  | key (s : String)
  | pipelinesLoaded (pipelines : List Pipeline) (err : Option String)
  | detailLoaded (pipeline : Option Pipeline) (stages : List StageInfo)
      (logs : String) (err : Option String)
  | windowSize (w h : Int)
  | tick
deriving Repr

/-- Legacy commands. -/
inductive LCmd where
  | loadPipelines
  | loadPipelineDetail (buildId : Int)
  | tick
  | quit
deriving DecidableEq, Repr

/-- Legacy `Model.Update`.  The `enter` branch indexes
`m.pipelines[m.selectedIndex]` guarded only by `len(m.pipelines) > 0`
(Go would panic on an out-of-range index; modelled as `getD`, which is
never reached out of range under the selection invariant proved below). -/
def LModel.update (msg : LMsg) (m : LModel) : LModel × List LCmd :=
  match msg with
  | .windowSize w h => ({ m with width := w, height := h }, [])
  | .key s =>
    if s = "ctrl+c" ∨ s = "q" then (m, [LCmd.quit])
    else if s = "esc" then
      (if m.currentView = .pipelineDetail then
        { m with currentView := .pipelineList, selectedPipeline := none,
                 stages := [], logs := "" }
       else m, [])
    else if s = "r" then
      if m.currentView = .pipelineList then
        ({ m with loading := true }, [LCmd.loadPipelines])
      else
        match m.selectedPipeline with
        | some p =>
          if m.currentView = .pipelineDetail then
            ({ m with loading := true }, [LCmd.loadPipelineDetail p.id])
          else (m, [])
        | none => (m, [])
    else if s = "up" ∨ s = "k" then
      (if m.currentView = .pipelineList ∧ m.selectedIndex > 0 then
        { m with selectedIndex := m.selectedIndex - 1 }
       else m, [])  -- in the detail view only the viewport scrolls
    else if s = "down" ∨ s = "j" then
      (if m.currentView = .pipelineList ∧ m.selectedIndex < (m.pipelines.length : Int) - 1 then
        { m with selectedIndex := m.selectedIndex + 1 }
       else m, [])
    else if s = "enter" then
      if m.currentView = .pipelineList ∧ m.pipelines.length > 0 then
        let p := m.pipelines.getD m.selectedIndex.toNat default
        ({ m with selectedPipeline := some p, currentView := .pipelineDetail,
                  loading := true }, [LCmd.loadPipelineDetail p.id])
      else (m, [])
    else (m, [])  -- pgup / pgdown only scroll the viewport
  | .pipelinesLoaded ps err =>
    let m1 := { m with loading := false }
    (match err with
     | some e => { m1 with err := some e }
     | none =>
       let m2 := { m1 with pipelines := ps }
       if m2.selectedIndex ≥ (m2.pipelines.length : Int) then
         { m2 with selectedIndex := 0 }
       else m2, [])
  | .detailLoaded p stages logs err =>
    let m1 := { m with loading := false }
    (match err with
     | some e => { m1 with err := some e }
     | none => { m1 with selectedPipeline := p, stages := stages, logs := logs }, [])
  | .tick =>
    let refreshCmds : List LCmd :=
      if m.autoRefresh then
        if m.currentView = .pipelineList then [LCmd.loadPipelines]
        else
          match m.selectedPipeline with
          | some p =>
            if m.currentView = .pipelineDetail then [LCmd.loadPipelineDetail p.id]
            else []
          | none => []
      else []
    (m, refreshCmds ++ [LCmd.tick])

/-- Right-pad with spaces to the given width (Go `fmt.Sprintf("%-12s", s)`
for ASCII text). -/
def padRight (s : String) (w : Nat) : String :=
  s ++ String.mk (List.replicate (w - s.length) ' ')

/-- `Pipeline.Duration` (models/pipeline.go).  `now` is `time.Now()` in
nanoseconds; it is consulted exactly when the run has started but has no
finish time.  Go truncates `float64` seconds/minutes/hours to `int`;
for the magnitudes representable here this equals truncating integer
division. -/
def Pipeline.duration (now : Int) (p : Pipeline) : String :=
  match p.startTime with
  | none => "Not started"
  | some st =>
    let endTime := match p.finishTime with | some f => f | none => now
    let d := endTime - st
    if d < 60 * 1000000000 then
      toString (d.tdiv 1000000000) ++ "s"
    else if d < 3600 * 1000000000 then
      toString (d.tdiv 60000000000) ++ "m " ++ toString ((d.tdiv 1000000000).tmod 60) ++ "s"
    else
      toString (d.tdiv 3600000000000) ++ "h " ++ toString ((d.tdiv 60000000000).tmod 60) ++ "m"

/-- Truncate the definition name: over 30 characters keeps 27 plus
`"..."` (`definition[:27] + "..."`). -/
def truncDefinition (s : String) : String :=
  if s.length > 30 then String.mk (s.data.take 27) ++ "..." else s

/-- Shorten the branch name: over 25 characters takes the last
`/`-segment, and if still over 25 keeps 22 plus `"..."`. -/
def truncBranch (s : String) : String :=
  if s.length > 25 then
    let parts := goSplit '/' s
    let b := parts.getLastD ""
    if b.length > 25 then String.mk (b.data.take 22) ++ "..." else b
  else s

/-- One row of the pipeline list: status padded to 12, definition to 32,
branch to 27, then the duration; the selected row gets the `▶` marker.
lipgloss style `Render` calls are colour/style only and modelled as the
identity (styles are outside the spec's scope). -/
def renderPipelineRow (now : Int) (selectedIndex : Int) (i : Nat) (p : Pipeline) : String :=
  let line := padRight p.status 12 ++ "  " ++ padRight (truncDefinition p.definition) 32
      ++ "  " ++ padRight (truncBranch p.sourceBranch) 27 ++ "  " ++ p.duration now
  (if (i : Int) = selectedIndex then "▶ " ++ line else "  " ++ line) ++ "\n"

/-- Legacy `renderPipelineList` (ui/model.go): the full text frame of the
pipeline list view, as a function of the state and of `now` (which flows
in only through `Pipeline.Duration`). -/
def renderPipelineList (now : Int) (m : LModel) : String :=
  let header := "Azure DevOps - Pipeline Dashboard" ++ "\n\n"
  if m.loading ∧ m.pipelines.length = 0 then header ++ "Loading pipelines...\n"
  else if m.pipelines.length = 0 then header ++ "No pipelines found.\n"
  else
    header ++ String.join (m.pipelines.enum.map
      (fun ip => renderPipelineRow now m.selectedIndex ip.1 ip.2))

end Legacy

namespace DiffGen

/-!
The unified-diff construction of `Client.GetPRFileDiff`
(internal/ui/items.go, after the two content fetches).  `isNewFile` /
`isDeletedFile` record that the target / source fetch failed.  The
`diffmatchpatch` spans computed by the external library are an input of
the span-walk branch.  The Go function assembles the diff with a
`strings.Builder` in which every write is a single `"\n"`-terminated
line; the builder is modelled as the list of written lines, and
`buildDiff` joins them back into the Go string.
-/

/-- A `diffmatchpatch.Diff` span (external library output). -/
inductive SpanType where
  | insert
  | delete
  | equal
deriving DecidableEq, Repr

/-- One span of the computed text difference. -/
structure Span where
  type : SpanType
  text : String
deriving DecidableEq, Repr

/-- The one-character marker of a span type. -/
def spanMarker : SpanType → String
  | .insert => "+"
  | .delete => "-"
  | .equal => " "

/-- Drop a terminal empty segment (`if i == len(lines)-1 && line == ""
{ continue }` in the span walk). -/
def dropTrailingEmpty (lines : List String) : List String :=
  match lines.getLast? with
  | some "" => lines.dropLast
  | _ => lines

/-- The lines emitted for one span in the span-walk branch: the span text
is split on newlines, a terminal empty segment is skipped, and each line
is prefixed with the span's marker. -/
def spanLines (sp : Span) : List String :=
  (dropTrailingEmpty (goSplit '\n' sp.text)).map (fun l => spanMarker sp.type ++ l)

/-- The new-file branch body: hunk header sized to
`len(strings.Split(sourceText, "\n"))`, then every split segment —
including a terminal empty one — emitted with a `+` marker.  The Go
guard `len(lines) > 0` is kept although `strings.Split` never returns an
empty slice. -/
def newFileBody (sourceText : String) : List String :=
  let lines := goSplit '\n' sourceText
  if lines.length > 0 then
    ("@@ -0,0 +1," ++ toString lines.length ++ " @@") :: lines.map (fun l => "+" ++ l)
  else []

/-- The deleted-file branch body: symmetric to `newFileBody` with `-`
markers. -/
def deletedFileBody (targetText : String) : List String :=
  let lines := goSplit '\n' targetText
  if lines.length > 0 then
    ("@@ -1," ++ toString lines.length ++ " +0,0 @@") :: lines.map (fun l => "-" ++ l)
  else []

/-- All lines written by `GetPRFileDiff` when assembling the diff. -/
def buildDiffLines (filePath : String) (isNewFile isDeletedFile : Bool)
    (targetText sourceText : String) (spans : List Span) : List String :=
  ("diff --git a/" ++ filePath ++ " b/" ++ filePath) ::
  (if isNewFile then
    "new file" :: "--- /dev/null" :: ("+++ b/" ++ filePath) :: newFileBody sourceText
  else if isDeletedFile then
    "deleted file" :: ("--- a/" ++ filePath) :: "+++ /dev/null" :: deletedFileBody targetText
  else
    ("--- a/" ++ filePath) :: ("+++ b/" ++ filePath) ::
    ("@@ -1," ++ toString (goSplit '\n' targetText).length
      ++ " +1," ++ toString (goSplit '\n' sourceText).length ++ " @@") ::
    (spans.map spanLines).flatten)

/-- The diff string returned by `GetPRFileDiff` (each written line is
`"\n"`-terminated). -/
def buildDiff (filePath : String) (isNewFile isDeletedFile : Bool)
    (targetText sourceText : String) (spans : List Span) : String :=
  String.join ((buildDiffLines filePath isNewFile isDeletedFile targetText sourceText spans).map
    (fun l => l ++ "\n"))

/-- A line of the produced diff is tagged Added by the display layer
(`formatDiff` in internal/ui/model.go) exactly when it starts with `+`
but not with `+++`. -/
def isAddedLine (l : String) : Bool :=
  match l.data with
  | '+' :: '+' :: '+' :: _ => false
  | '+' :: _ => true
  | _ => false

/-- The lines of a diff tagged Added. -/
def addedLines (lines : List String) : List String :=
  lines.filter (fun l => isAddedLine l)

/-- The line count of a text in the sense of the spec: the segments of
the newline split with a terminal empty segment (produced by a trailing
newline) dropped. -/
def textLineCount (s : String) : Nat :=
  (dropTrailingEmpty (goSplit '\n' s)).length

end DiffGen

/-!  ## Fixtures and helper lemmas  -/

/-- The example configuration of the spec's scenario: one PR pair
`(ProjectA, RepoA)` and one pipeline pair `(ProjectA, CI)`. -/
def cfg0 : Dash.Config where
  organization := "org"
  pullRequests := [⟨"ProjectA", "RepoA"⟩]
  pipelines := [⟨"ProjectA", "CI", 0⟩]
  refreshInterval := 30

/-- A sample pull request. -/
def prA : Dash.PullRequest := ⟨10, "First", "ProjectA", "RepoA"⟩

/-- A second sample pull request (list index 1). -/
def prB : Dash.PullRequest := ⟨11, "Second", "ProjectA", "RepoA"⟩

/-- The freshly initialised dashboard model over `cfg0`. -/
def dashFixture : Dash.Model := Dash.initialModel cfg0

theorem compPhase_view (ext : Dash.Ext) (msg : Dash.Msg) (m : Dash.Model) (cmds : List Dash.Cmd) :
    (Dash.compPhase ext msg m cmds).1.view = m.view := rfl

theorem compPhase_err (ext : Dash.Ext) (msg : Dash.Msg) (m : Dash.Model) (cmds : List Dash.Cmd) :
    (Dash.compPhase ext msg m cmds).1.err = m.err := rfl

theorem compPhase_pullRequests (ext : Dash.Ext) (msg : Dash.Msg) (m : Dash.Model)
    (cmds : List Dash.Cmd) :
    (Dash.compPhase ext msg m cmds).1.pullRequests = m.pullRequests := rfl

theorem compPhase_builds (ext : Dash.Ext) (msg : Dash.Msg) (m : Dash.Model)
    (cmds : List Dash.Cmd) :
    (Dash.compPhase ext msg m cmds).1.builds = m.builds := rfl

theorem compPhase_currentDiff (ext : Dash.Ext) (msg : Dash.Msg) (m : Dash.Model)
    (cmds : List Dash.Cmd) :
    (Dash.compPhase ext msg m cmds).1.currentDiff = m.currentDiff := rfl

theorem compPhase_currentFilePath (ext : Dash.Ext) (msg : Dash.Msg) (m : Dash.Model)
    (cmds : List Dash.Cmd) :
    (Dash.compPhase ext msg m cmds).1.currentFilePath = m.currentFilePath := rfl

/-- The `enter` branch of `Update` returns `handleEnter` directly,
skipping the trailing component dispatch. -/
theorem update_key_enter (ext : Dash.Ext) (now : Int) (m : Dash.Model) :
    Dash.Model.update ext now (.key "enter") m = m.handleEnter := by
  simp [Dash.Model.update]

/-!  ## C7 — invalid selection makes the confirm transition a no-op  -/

/-- The relevant list of the confirm transition is empty or its selection
cursor is out of bounds. -/
def selectionInvalid (m : Dash.Model) : Prop :=
  (m.view = .dashboard ∧ m.activeTab = 0 ∧
    (m.pullRequests = [] ∨ m.prIndex < 0 ∨ (m.pullRequests.length : Int) ≤ m.prIndex))
  ∨ (m.view = .dashboard ∧ m.activeTab = 1 ∧
    (m.builds = [] ∨ m.buildIndex < 0 ∨ (m.builds.length : Int) ≤ m.buildIndex))
  ∨ (m.view = .prFiles ∧
    (m.prFiles = [] ∨ m.fileIndex < 0 ∨ (m.prFiles.length : Int) ≤ m.fileIndex))

/-- C7: in every state in which the relevant list is empty or the
selection index is out of bounds, the confirm ("enter") event is a
no-op: the state is returned unchanged and no command is issued (total
evaluation, no panic or index underflow). -/
theorem invalid_selection_enter_noop (ext : Dash.Ext) (now : Int) (m : Dash.Model)
    (h : selectionInvalid m) :
    Dash.Model.update ext now (.key "enter") m = (m, []) := by
  rw [update_key_enter]
  rcases h with ⟨hv, ht, hsel⟩ | ⟨hv, ht, hsel⟩ | ⟨hv, hsel⟩
  · have hbad : m.pullRequests.length = 0 ∨ m.prIndex < 0 ∨
        (m.pullRequests.length : Int) ≤ m.prIndex := by
      rcases hsel with he | hc | hc
      · exact Or.inl (by simp [he])
      · exact Or.inr (Or.inl hc)
      · exact Or.inr (Or.inr hc)
    simp only [Dash.Model.handleEnter, hv]
    rw [ht]
    split_ifs <;> first | rfl | (exfalso; omega)
  · have hbad : m.builds.length = 0 ∨ m.buildIndex < 0 ∨
        (m.builds.length : Int) ≤ m.buildIndex := by
      rcases hsel with he | hc | hc
      · exact Or.inl (by simp [he])
      · exact Or.inr (Or.inl hc)
      · exact Or.inr (Or.inr hc)
    simp only [Dash.Model.handleEnter, hv]
    rw [ht]
    split_ifs <;> first | rfl | (exfalso; omega)
  · have hbad : m.prFiles.length = 0 ∨ m.fileIndex < 0 ∨
        (m.prFiles.length : Int) ≤ m.fileIndex := by
      rcases hsel with he | hc | hc
      · exact Or.inl (by simp [he])
      · exact Or.inr (Or.inl hc)
      · exact Or.inr (Or.inr hc)
    simp only [Dash.Model.handleEnter, hv]
    split_ifs <;> first | rfl | (exfalso; omega)

/-- Witness for C7: on the freshly initialised model (Dashboard, PR tab,
empty PR list) the confirm event changes nothing and issues nothing. -/
theorem invalid_selection_enter_noop_witness :
    Dash.Model.update Dash.Ext.id 0 (.key "enter") dashFixture = (dashFixture, []) :=
  invalid_selection_enter_noop Dash.Ext.id 0 dashFixture (Or.inl ⟨rfl, rfl, Or.inl rfl⟩)

/-!  ## C6 — back navigation  -/

/-- The parent of each view in the back-navigation chain
(FileDiff → PRFiles → PRDetail → Dashboard; BuildLogs → Dashboard). -/
def parentView : Dash.View → Dash.View
  | .fileDiff => .prFiles
  | .prFiles => .prDetails
  | .prDetails => .dashboard
  | .buildLogs => .dashboard
  | .dashboard => .dashboard

/-- C6: from every state in a non-Dashboard view — however it was
reached — the back event (`h` or `left`) lands on the immediate parent
per the chain FileDiff→PRFiles→PRDetail→Dashboard, BuildLogs→Dashboard,
and clears the displayed error. -/
theorem back_navigation_parent (ext : Dash.Ext) (now : Int) (m : Dash.Model) (k : String)
    (hk : k = "h" ∨ k = "left") (hv : m.view ≠ .dashboard) :
    (Dash.Model.update ext now (.key k) m).1.view = parentView m.view ∧
      (Dash.Model.update ext now (.key k) m).1.err = none := by
  have hstep : Dash.Model.update ext now (.key k) m =
      Dash.compPhase ext (.key k) (Dash.backNav m) [] := by
    rcases hk with h | h <;> subst h <;> simp [Dash.Model.update]
  rw [hstep, compPhase_view, compPhase_err]
  cases hv2 : m.view with
  | dashboard => exact absurd hv2 hv
  | prDetails => simp [Dash.backNav, parentView, hv2]
  | prFiles => simp [Dash.backNav, parentView, hv2]
  | fileDiff => simp [Dash.backNav, parentView, hv2]
  | buildLogs => simp [Dash.backNav, parentView, hv2]

/-- Witness for C6: back from the FileDiff view lands on PRFiles with the
error cleared. -/
theorem back_navigation_parent_witness :
    (Dash.Model.update Dash.Ext.id 0 (.key "h")
        { dashFixture with view := .fileDiff, err := some "stale" }).1.view =
      parentView .fileDiff ∧
    (Dash.Model.update Dash.Ext.id 0 (.key "h")
        { dashFixture with view := .fileDiff, err := some "stale" }).1.err = none :=
  back_navigation_parent Dash.Ext.id 0 _ "h" (Or.inl rfl) (by decide)

/-!  ## C3 — errored fetch completions  -/

/-- C3 counterexample: a failed PR-files fetch does not leave the user on
the originating PRDetail view — `Update` sets the view to PRFiles even on
error, so the forward view change does occur. -/
theorem files_error_forward_view_cex :
    (Dash.Model.update Dash.Ext.id 0 (.filesLoaded [] (some "boom"))
        { dashFixture with view := .prDetails }).1.view = .prFiles ∧
      Dash.View.prFiles ≠ Dash.View.prDetails :=
  ⟨rfl, by decide⟩

/-- C3 amended: an errored completion records the error in the last-error
field in all three cases; for the file-diff and build-log fetches the
view is unchanged (and the displayed diff is untouched), but an errored
PR-files fetch sets the view to PRFiles — the fetch's forward destination
— rather than keeping the originating view. -/
theorem fetch_error_handling_amended (ext : Dash.Ext) (now : Int) (m : Dash.Model)
    (e : String) (files : List String) (diff filePath logs : String) :
    ((Dash.Model.update ext now (.filesLoaded files (some e)) m).1.view = .prFiles ∧
      (Dash.Model.update ext now (.filesLoaded files (some e)) m).1.err = some e) ∧
    ((Dash.Model.update ext now (.diffLoaded diff filePath (some e)) m).1.view = m.view ∧
      (Dash.Model.update ext now (.diffLoaded diff filePath (some e)) m).1.err = some e ∧
      (Dash.Model.update ext now (.diffLoaded diff filePath (some e)) m).1.currentDiff =
        m.currentDiff ∧
      (Dash.Model.update ext now (.diffLoaded diff filePath (some e)) m).1.currentFilePath =
        m.currentFilePath) ∧
    ((Dash.Model.update ext now (.logsLoaded logs (some e)) m).1.view = m.view ∧
      (Dash.Model.update ext now (.logsLoaded logs (some e)) m).1.err = some e) := by
  refine ⟨⟨?_, ?_⟩, ⟨?_, ?_, ?_, ?_⟩, ?_, ?_⟩ <;> rfl

/-!  ## C4 — no coalescing of concurrent full refreshes  -/

/-- C4 counterexample: two back-to-back manual refreshes while the first
is still outstanding issue two full-refresh fetch commands (two fetches
per configured pair), not one. -/
theorem double_manual_refresh_cex :
    (Dash.Model.update Dash.Ext.id 0 (.key "r")
        { dashFixture with loading := false }).1.loading = true ∧
    ((Dash.Model.update Dash.Ext.id 0 (.key "r")
        { dashFixture with loading := false }).2 ++
      (Dash.Model.update Dash.Ext.id 0 (.key "r")
        (Dash.Model.update Dash.Ext.id 0 (.key "r")
          { dashFixture with loading := false }).1).2) =
      [Dash.Cmd.loadData, Dash.Cmd.loadData] ∧
    ([Dash.Cmd.loadData, Dash.Cmd.loadData].count Dash.Cmd.loadData ≠ 1) :=
  ⟨rfl, rfl, by decide⟩

/-- C4 amended: the manual-refresh key always sets the loading flag and
issues a fresh full-refresh command, even while a refresh is already
outstanding — no coalescing exists, so each of two back-to-back presses
issues its own fetch per configured pair. -/
theorem manual_refresh_not_coalesced (ext : Dash.Ext) (now : Int) (m : Dash.Model)
    (h : m.loading = true) :
    Dash.Model.update ext now (.key "r") m = ({ m with loading := true }, [Dash.Cmd.loadData]) := by
  simp [Dash.Model.update]

/-- Witness for the amended C4: pressing `r` while a refresh is
outstanding issues another full-refresh command. -/
theorem manual_refresh_not_coalesced_witness :
    Dash.Model.update Dash.Ext.id 0 (.key "r") { dashFixture with loading := true } =
      ({ { dashFixture with loading := true } with loading := true }, [Dash.Cmd.loadData]) :=
  manual_refresh_not_coalesced Dash.Ext.id 0 { dashFixture with loading := true } rfl

/-!  ## C9 — what a scheduler tick triggers  -/

/-- C9 counterexample trace.  A successful refresh completes at time 0
(`dataLoaded` with no error), a FAILED refresh completes at time 25 s —
which also resets `lastUpdate` — and a tick arrives at time 31 s.  The
last successful refresh was 31 s ≥ 30 s ago and auto-refresh is on, yet
no fetch is issued: `lastUpdate` tracks the last completed refresh,
successful or not, so the code and the claim disagree at this input. -/
theorem tick_last_successful_cex :
    ((Dash.Model.update Dash.Ext.id 25000000000
        (.dataLoaded [] [] (some "network error"))
        (Dash.Model.update Dash.Ext.id 0 (.dataLoaded [] [] none) dashFixture).1).1.autoRefresh
      = true) ∧
    ((31000000000 : Int) - 0 ≥ 30000000000) ∧
    (Dash.Model.update Dash.Ext.id 31000000000 .tick
        (Dash.Model.update Dash.Ext.id 25000000000
          (.dataLoaded [] [] (some "network error"))
          (Dash.Model.update Dash.Ext.id 0 (.dataLoaded [] [] none) dashFixture).1).1).2
      = [Dash.Cmd.tick] :=
  ⟨rfl, by decide, rfl⟩

/-- C9 amended: a scheduler tick triggers a full refresh if and only if
auto-refresh is enabled and the elapsed time since the last COMPLETED
refresh (`lastUpdate`, which is reset by failed completions as well) is
at least the configured interval. -/
theorem tick_trigger_iff_amended (ext : Dash.Ext) (now : Int) (m : Dash.Model) :
    Dash.Cmd.loadData ∈ (Dash.Model.update ext now .tick m).2 ↔
      (m.autoRefresh = true ∧ now - m.lastUpdate ≥ m.refreshInterval) := by
  show Dash.Cmd.loadData ∈ (Dash.compPhase ext .tick m _).2 ↔ _
  unfold Dash.compPhase
  by_cases hc : (m.autoRefresh : Prop) ∧ now - m.lastUpdate ≥ m.refreshInterval
  · simp only [if_pos hc]
    constructor
    · intro _; exact hc
    · intro _; simp
  · simp only [if_neg hc]
    constructor
    · intro hmem
      exfalso
      rcases List.mem_append.mp hmem with h1 | h2
      · simp at h1
      · split at h2 <;> simp at h2
    · intro h; exact absurd h hc

/-- Witness for the amended C9: with the interval elapsed since the last
completed refresh and auto-refresh on, a tick issues the fetch. -/
theorem tick_trigger_iff_amended_witness :
    Dash.Cmd.loadData ∈ (Dash.Model.update Dash.Ext.id 31000000000 .tick
      { dashFixture with lastUpdate := 0, loading := false }).2 :=
  (tick_trigger_iff_amended Dash.Ext.id 31000000000
    { dashFixture with lastUpdate := 0, loading := false }).mpr ⟨rfl, by decide⟩

/-!  ## C1 — incomplete failure of a full refresh  -/

/-- The configuration of the C1 counterexample: three PR pairs, of which
the first two fail and the third succeeds. -/
def cfgThreePairs : Dash.Config where
  organization := "org"
  pullRequests := [⟨"ProjectA", "RepoA"⟩, ⟨"ProjectA", "RepoB"⟩, ⟨"ProjectA", "RepoC"⟩]
  pipelines := []
  refreshInterval := 30

/-- The external PR fetch of the C1 counterexample: `RepoA` and `RepoB`
fail, `RepoC` returns one pull request. -/
def prFetchFlaky : Dash.PRPairConfig → Except String (List Dash.PullRequest) :=
  fun c =>
    if c.repository = "RepoA" then .error "boom1"
    else if c.repository = "RepoB" then .error "boom2"
    else .ok [prA]

/-- The external build fetch of the C1 counterexample (no pipelines are
configured). -/
def buildFetchEmpty : Dash.PipelineConfig → Except String (List Dash.Build) :=
  fun _ => .ok []

/-- C1 counterexample: with k = 2 failing pairs (`RepoA`, `RepoB`) and one
success, the aggregate error names only the LAST failing pair (`RepoB`),
and applying the completion message leaves the displayed pull-request
list unchanged (empty) instead of updating it with the successful pair's
data `[prA]`. -/
theorem failed_refresh_cex :
    Dash.loadData cfgThreePairs prFetchFlaky buildFetchEmpty =
      ([prA], [], some "failed to load PRs for ProjectA/RepoB: boom2") ∧
    (Dash.Model.update Dash.Ext.id 0
        (Dash.loadDataMsg cfgThreePairs prFetchFlaky buildFetchEmpty) dashFixture).1.pullRequests
      = [] ∧
    ([] : List Dash.PullRequest) ≠ [prA] ∧
    some "failed to load PRs for ProjectA/RepoB: boom2" ≠
      some (Dash.prPairError ⟨"ProjectA", "RepoA"⟩ "boom1") :=
  ⟨rfl, rfl, by decide, by decide⟩

/-- The union of the successful per-pair results, in configuration
order. -/
def collectOk (get : α → Except String (List β)) (l : List α) : List β :=
  (l.map (fun c => match get c with | .ok bs => bs | .error _ => [])).flatten

/-- The formatted errors of the failing pairs, in configuration order. -/
def collectErrs (get : α → Except String (List β)) (mkErr : α → String → String)
    (l : List α) : List String :=
  l.filterMap (fun c => match get c with | .error e => some (mkErr c e) | .ok _ => none)

theorem getLast?_cons_or (x : α) (xs : List α) (e0 : Option α) :
    ((x :: xs).getLast?).or e0 = (xs.getLast?).or (some x) := by
  cases xs with
  | nil => simp
  | cons y ys =>
    rw [List.getLast?_cons_cons]
    cases h : (y :: ys).getLast? with
    | none => simp [List.getLast?_eq_none_iff] at h
    | some z => simp [Option.or]

theorem foldl_fetchStep (get : α → Except String (List β)) (mkErr : α → String → String) :
    ∀ (l : List α) (acc : List β) (e0 : Option String),
      (l.foldl (Dash.fetchStep mkErr get) (acc, e0))
        = (acc ++ collectOk get l, ((collectErrs get mkErr l).getLast?).or e0) := by
  intro l
  induction l with
  | nil => intro acc e0; simp [collectOk, collectErrs]
  | cons c t ih =>
    intro acc e0
    simp only [List.foldl_cons, Dash.fetchStep]
    split
    · rename_i e hg
      rw [ih]
      simp [collectOk, collectErrs, hg, getLast?_cons_or]
    · rename_i bs hg
      rw [ih]
      simp [collectOk, collectErrs, hg, List.append_assoc]

/-- C1 amended: per-pair failures indeed do not abort sibling fetches —
the completion message carries the union of all successful pairs' data —
but its error is the error of the LAST failing pair alone (PR pairs in
configuration order, then pipeline pairs), not an aggregate of all k;
and when any pair failed, applying the completion message records that
error and leaves BOTH displayed lists unchanged (the successes in the
message are discarded); only a fully successful refresh replaces the
lists (leaving the error field untouched). -/
theorem failed_refresh_amended (cfg : Dash.Config)
    (getPRs : Dash.PRPairConfig → Except String (List Dash.PullRequest))
    (getBuilds : Dash.PipelineConfig → Except String (List Dash.Build))
    (ext : Dash.Ext) (now : Int) (m : Dash.Model) :
    (Dash.loadData cfg getPRs getBuilds).1 = collectOk getPRs cfg.pullRequests ∧
    (Dash.loadData cfg getPRs getBuilds).2.1 = collectOk getBuilds cfg.pipelines ∧
    (Dash.loadData cfg getPRs getBuilds).2.2 =
      (collectErrs getPRs Dash.prPairError cfg.pullRequests ++
        collectErrs getBuilds Dash.buildPairError cfg.pipelines).getLast? ∧
    (∀ e, (Dash.loadData cfg getPRs getBuilds).2.2 = some e →
      (Dash.Model.update ext now (Dash.loadDataMsg cfg getPRs getBuilds) m).1.pullRequests =
          m.pullRequests ∧
      (Dash.Model.update ext now (Dash.loadDataMsg cfg getPRs getBuilds) m).1.builds =
          m.builds ∧
      (Dash.Model.update ext now (Dash.loadDataMsg cfg getPRs getBuilds) m).1.err = some e) ∧
    ((Dash.loadData cfg getPRs getBuilds).2.2 = none →
      (Dash.Model.update ext now (Dash.loadDataMsg cfg getPRs getBuilds) m).1.pullRequests =
          (Dash.loadData cfg getPRs getBuilds).1 ∧
      (Dash.Model.update ext now (Dash.loadDataMsg cfg getPRs getBuilds) m).1.builds =
          (Dash.loadData cfg getPRs getBuilds).2.1 ∧
      (Dash.Model.update ext now (Dash.loadDataMsg cfg getPRs getBuilds) m).1.err = m.err) := by
  have hld : Dash.loadData cfg getPRs getBuilds =
      (collectOk getPRs cfg.pullRequests, collectOk getBuilds cfg.pipelines,
        (collectErrs getPRs Dash.prPairError cfg.pullRequests ++
          collectErrs getBuilds Dash.buildPairError cfg.pipelines).getLast?) := by
    unfold Dash.loadData
    dsimp only
    rw [foldl_fetchStep, foldl_fetchStep]
    simp only [List.nil_append]
    congr 1
    congr 1
    cases hb : (collectErrs getBuilds Dash.buildPairError cfg.pipelines).getLast? with
    | none =>
      have hbe : collectErrs getBuilds Dash.buildPairError cfg.pipelines = [] :=
        List.getLast?_eq_none_iff.mp hb
      simp [hbe, Option.none_or, Option.or_none]
    | some e =>
      have hne : collectErrs getBuilds Dash.buildPairError cfg.pipelines ≠ [] := by
        intro hc; rw [hc] at hb; simp at hb
      rw [List.getLast?_append_of_ne_nil _ hne, hb]
      simp [Option.or]
  refine ⟨by rw [hld], by rw [hld], by rw [hld], ?_, ?_⟩
  · intro e he
    have : Dash.loadDataMsg cfg getPRs getBuilds =
        .dataLoaded (Dash.loadData cfg getPRs getBuilds).1
          (Dash.loadData cfg getPRs getBuilds).2.1 (some e) := by
      unfold Dash.loadDataMsg
      rw [← he]
    rw [this]
    exact ⟨rfl, rfl, rfl⟩
  · intro he
    have : Dash.loadDataMsg cfg getPRs getBuilds =
        .dataLoaded (Dash.loadData cfg getPRs getBuilds).1
          (Dash.loadData cfg getPRs getBuilds).2.1 none := by
      unfold Dash.loadDataMsg
      rw [← he]
    rw [this]
    exact ⟨rfl, rfl, rfl⟩

/-- Witness for the amended C1: on the three-pair fixture the completion
carries the error of the last failing pair and applying it leaves the
displayed pull-request list unchanged. -/
theorem failed_refresh_amended_witness :
    (Dash.Model.update Dash.Ext.id 0
        (Dash.loadDataMsg cfgThreePairs prFetchFlaky buildFetchEmpty) dashFixture).1.pullRequests
      = dashFixture.pullRequests ∧
    (Dash.Model.update Dash.Ext.id 0
        (Dash.loadDataMsg cfgThreePairs prFetchFlaky buildFetchEmpty) dashFixture).1.err
      = some "failed to load PRs for ProjectA/RepoB: boom2" :=
  ⟨((failed_refresh_amended cfgThreePairs prFetchFlaky buildFetchEmpty Dash.Ext.id 0
      dashFixture).2.2.2.1 "failed to load PRs for ProjectA/RepoB: boom2" rfl).1,
   ((failed_refresh_amended cfgThreePairs prFetchFlaky buildFetchEmpty Dash.Ext.id 0
      dashFixture).2.2.2.1 "failed to load PRs for ProjectA/RepoB: boom2" rfl).2.2⟩

/-!  ## C2 — drill-down scenario and stale diff completions  -/

/-- The spec's example scenario after the initial load: Dashboard, PR
tab, two pull requests, PR cursor on index 1, file cursor on index 0. -/
def scenarioStart : Dash.Model :=
  { Dash.initialModel cfg0 with
      loading := false
      pullRequests := [prA, prB]
      prItems := [prA, prB]
      prIndex := 1
      fileIndex := 0 }

/-- C2, evaluated on the failing trace.  Selecting PR index 1, confirming
and selecting changed-file index 0 does reach the FileDiff view showing
the diff for exactly that `(prId, filePath)` pair — the commands are
issued against PR 11 and file `f0`, and after the matching completion the
view is FileDiff with `currentFilePath = "f0"`.  But a completion for a
diff fetch issued against a PREVIOUSLY selected file (`fOld`) then
overwrites the displayed pair unconditionally: `Update` installs the
stale diff and file path, contradicting the claim's never-overwrite
part. -/
theorem stale_diff_completion_overwrites :
    (Dash.Model.update Dash.Ext.id 0 (.key "enter")
        (Dash.Model.update Dash.Ext.id 0 (.key "enter") scenarioStart).1).2 =
      [Dash.Cmd.loadPRFiles "ProjectA" "RepoA" 11] ∧
    (Dash.Model.update Dash.Ext.id 0 (.key "enter")
        (Dash.Model.update Dash.Ext.id 0 (.filesLoaded ["f0", "f1"] none)
          (Dash.Model.update Dash.Ext.id 0 (.key "enter")
            (Dash.Model.update Dash.Ext.id 0 (.key "enter") scenarioStart).1).1).1).2 =
      [Dash.Cmd.loadFileDiff "ProjectA" "RepoA" 11 "f0"] ∧
    ((Dash.Model.update Dash.Ext.id 0 (.diffLoaded "d0" "f0" none)
        (Dash.Model.update Dash.Ext.id 0 (.filesLoaded ["f0", "f1"] none)
          (Dash.Model.update Dash.Ext.id 0 (.key "enter")
            (Dash.Model.update Dash.Ext.id 0 (.key "enter") scenarioStart).1).1).1).1.view =
      Dash.View.fileDiff) ∧
    ((Dash.Model.update Dash.Ext.id 0 (.diffLoaded "d0" "f0" none)
        (Dash.Model.update Dash.Ext.id 0 (.filesLoaded ["f0", "f1"] none)
          (Dash.Model.update Dash.Ext.id 0 (.key "enter")
            (Dash.Model.update Dash.Ext.id 0 (.key "enter") scenarioStart).1).1).1).1.selectedPR =
      some prB) ∧
    ((Dash.Model.update Dash.Ext.id 0 (.diffLoaded "d0" "f0" none)
        (Dash.Model.update Dash.Ext.id 0 (.filesLoaded ["f0", "f1"] none)
          (Dash.Model.update Dash.Ext.id 0 (.key "enter")
            (Dash.Model.update Dash.Ext.id 0 (.key "enter") scenarioStart).1).1).1).1.currentFilePath
      = "f0") ∧
    ((Dash.Model.update Dash.Ext.id 0 (.diffLoaded "dOld" "fOld" none)
        (Dash.Model.update Dash.Ext.id 0 (.diffLoaded "d0" "f0" none)
          (Dash.Model.update Dash.Ext.id 0 (.filesLoaded ["f0", "f1"] none)
            (Dash.Model.update Dash.Ext.id 0 (.key "enter")
              (Dash.Model.update Dash.Ext.id 0 (.key "enter") scenarioStart).1).1).1).1).1.currentFilePath
      = "fOld") ∧
    ((Dash.Model.update Dash.Ext.id 0 (.diffLoaded "dOld" "fOld" none)
        (Dash.Model.update Dash.Ext.id 0 (.diffLoaded "d0" "f0" none)
          (Dash.Model.update Dash.Ext.id 0 (.filesLoaded ["f0", "f1"] none)
            (Dash.Model.update Dash.Ext.id 0 (.key "enter")
              (Dash.Model.update Dash.Ext.id 0 (.key "enter") scenarioStart).1).1).1).1).1.currentDiff
      = "dOld") ∧
    ("fOld" : String) ≠ "f0" :=
  ⟨rfl, rfl, rfl, rfl, rfl, rfl, rfl, by decide⟩

/-!  ## C5 — the selection index stays in bounds  -/

/-- The selection invariant of the legacy model: the cursor is
non-negative and in bounds of the pipeline list, except that on an empty
list it sits at the reset value 0 (the code's representation of an unset
selection). -/
def legacySelectionInv (m : Legacy.LModel) : Prop :=
  0 ≤ m.selectedIndex ∧
    (m.selectedIndex < (m.pipelines.length : Int) ∨
      (m.pipelines.length = 0 ∧ m.selectedIndex = 0))

/-- C5: the selection invariant holds initially and is preserved by every
message — in particular by every wholesale list replacement
(`pipelinesLoaded`), whose clamp resets the cursor to 0 whenever it would
fall out of the new bounds — so no out-of-bounds selection ever persists
across any operation. -/
theorem selection_index_invariant :
    legacySelectionInv Legacy.initialLModel ∧
    ∀ (m : Legacy.LModel) (msg : Legacy.LMsg),
      legacySelectionInv m → legacySelectionInv (Legacy.LModel.update msg m).1 := by
  constructor
  · exact ⟨le_refl 0, Or.inr ⟨rfl, rfl⟩⟩
  intro m msg h
  obtain ⟨h0, hio⟩ := h
  cases msg with
  | windowSize w hh => exact ⟨h0, hio⟩
  | tick => exact ⟨h0, hio⟩
  | detailLoaded p stages logs err =>
    cases err with
    | some e => exact ⟨h0, hio⟩
    | none => exact ⟨h0, hio⟩
  | pipelinesLoaded ps err =>
    cases err with
    | some e => exact ⟨h0, hio⟩
    | none =>
      unfold Legacy.LModel.update
      dsimp only
      split_ifs with hge
      · refine ⟨le_refl 0, ?_⟩
        by_cases hl : ps.length = 0
        · exact Or.inr ⟨hl, rfl⟩
        · refine Or.inl ?_
          show (0 : Int) < (ps.length : Int)
          omega
      · refine ⟨h0, Or.inl ?_⟩
        show m.selectedIndex < (ps.length : Int)
        omega
  | key s =>
    unfold Legacy.LModel.update
    dsimp only
    by_cases hq : s = "ctrl+c" ∨ s = "q"
    · rw [if_pos hq]; exact ⟨h0, hio⟩
    rw [if_neg hq]
    by_cases hesc : s = "esc"
    · rw [if_pos hesc]
      split_ifs <;> exact ⟨h0, hio⟩
    rw [if_neg hesc]
    by_cases hr : s = "r"
    · rw [if_pos hr]
      split_ifs with hc hc2 <;> cases m.selectedPipeline <;> exact ⟨h0, hio⟩
    rw [if_neg hr]
    by_cases hup : s = "up" ∨ s = "k"
    · rw [if_pos hup]
      split_ifs with hc
      · obtain ⟨hcv, hci⟩ := hc
        refine ⟨?_, ?_⟩
        · show (0 : Int) ≤ m.selectedIndex - 1
          omega
        · rcases hio with hlt | ⟨hlen, hz⟩
          · refine Or.inl ?_
            show m.selectedIndex - 1 < (m.pipelines.length : Int)
            omega
          · exact absurd hz (by omega)
      · exact ⟨h0, hio⟩
    rw [if_neg hup]
    by_cases hdn : s = "down" ∨ s = "j"
    · rw [if_pos hdn]
      split_ifs with hc
      · obtain ⟨hcv, hci⟩ := hc
        refine ⟨?_, Or.inl ?_⟩
        · show (0 : Int) ≤ m.selectedIndex + 1
          omega
        · show m.selectedIndex + 1 < (m.pipelines.length : Int)
          omega
      · exact ⟨h0, hio⟩
    rw [if_neg hdn]
    by_cases hen : s = "enter"
    · rw [if_pos hen]
      split_ifs with hc
      · exact ⟨h0, hio⟩
      · exact ⟨h0, hio⟩
    rw [if_neg hen]
    exact ⟨h0, hio⟩

/-- Witness for C5: applying a list replacement that shrinks the list
below the current cursor (cursor 0, new list empty is covered by
initialisation; here a 1-element load onto the initial model) preserves
the invariant. -/
theorem selection_index_invariant_witness :
    legacySelectionInv
      ((Legacy.LModel.update (.pipelinesLoaded [] none) Legacy.initialLModel).1) :=
  selection_index_invariant.2 Legacy.initialLModel (.pipelinesLoaded [] none)
    selection_index_invariant.1

/-!  ## C8 — the new-file diff branch  -/

/-- C8 counterexample: diffing the absent target against the non-empty
source `"a\n"` (one line, terminated by a newline) emits TWO Added lines
— `"+a"` and the spurious empty `"+"` produced by the terminal empty
split segment, which the new-file branch does not drop — although the
source's line count is 1. -/
theorem newfile_trailing_empty_cex :
    DiffGen.addedLines (DiffGen.buildDiffLines "f.go" true false "" "a\n" []) = ["+a", "+"] ∧
    DiffGen.textLineCount "a\n" = 1 ∧
    (DiffGen.addedLines (DiffGen.buildDiffLines "f.go" true false "" "a\n" [])).length ≠
      DiffGen.textLineCount "a\n" ∧
    "+" ∈ DiffGen.buildDiffLines "f.go" true false "" "a\n" [] := by
  refine ⟨rfl, rfl, by decide, ?_⟩
  decide

theorem isAddedLine_diffgit (s t u : String) :
    DiffGen.isAddedLine ((("diff --git a/" ++ s) ++ t) ++ u) = false := rfl

theorem isAddedLine_newfile : DiffGen.isAddedLine "new file" = false := rfl

theorem isAddedLine_devnull : DiffGen.isAddedLine "--- /dev/null" = false := rfl

theorem isAddedLine_tripleplus (s : String) :
    DiffGen.isAddedLine ("+++ b/" ++ s) = false := rfl

theorem isAddedLine_hunk (s t : String) :
    DiffGen.isAddedLine (("@@ -0,0 +1," ++ s) ++ t) = false := rfl

/-- C8 amended: in the new-file branch EVERY segment of the newline split
of the source — including the terminal empty segment produced when the
source ends in a newline — is emitted as an Added line; the Added lines
are exactly the split segments prefixed with `+`, so their number is the
split length (newline count + 1), not the line count with the trailing
empty segment dropped.  (The trailing-empty drop exists only in the
two-sided span walk.)  The hypothesis excludes source lines that
themselves start with `++`, which the prefix-based display classification
would misread as headers. -/
theorem newfile_added_lines_amended (fp src : String) (spans : List DiffGen.Span)
    (h : ∀ l ∈ goSplit '\n' src, DiffGen.isAddedLine ("+" ++ l) = true) :
    DiffGen.addedLines (DiffGen.buildDiffLines fp true false "" src spans) =
      (goSplit '\n' src).map (fun l => "+" ++ l) := by
  have hlen : (goSplit '\n' src).length > 0 := by
    cases hg : goSplit '\n' src with
    | nil => exact absurd hg (goSplit_ne_nil '\n' src)
    | cons a t => simp
  unfold DiffGen.buildDiffLines DiffGen.newFileBody
  rw [if_pos rfl, if_pos hlen]
  simp only [DiffGen.addedLines, List.filter_cons, isAddedLine_diffgit, isAddedLine_newfile,
    isAddedLine_devnull, isAddedLine_tripleplus, isAddedLine_hunk, Bool.false_eq_true,
    if_false]
  rw [List.filter_map]
  have hid : (goSplit '\n' src).filter
      ((fun l => DiffGen.isAddedLine l) ∘ fun l => "+" ++ l) = goSplit '\n' src :=
    List.filter_eq_self.mpr (fun a ha => by simpa using h a ha)
  rw [hid]

/-- Witness for the amended C8: on source `"a\nb\n"` the Added lines are
`"+a"`, `"+b"` and the empty `"+"` for the terminal split segment. -/
theorem newfile_added_lines_amended_witness :
    DiffGen.addedLines (DiffGen.buildDiffLines "f.go" true false "" "a\nb\n" []) =
      ["+a", "+b", "+"] := by
  rw [newfile_added_lines_amended "f.go" "a\nb\n" [] (by decide)]
  rfl

/-!  ## C10 — the renderer and the clock  -/

/-- A pipeline that has started and not finished; its rendered duration
reads the clock. -/
def pRunning : Legacy.Pipeline where
  id := 1
  number := "20"
  status := "inProgress"
  result := ""
  definition := "Build"
  sourceBranch := "main"
  requestedBy := "dev"
  startTime := some 0
  finishTime := none
  queueTime := none

/-- A legacy model displaying one running pipeline. -/
def mRunning : Legacy.LModel :=
  { Legacy.initialLModel with pipelines := [pRunning], loading := false }

/-- C10 counterexample: rendering the same state at wall-clock 5 s and at
6 s produces different frames (`5s` vs `6s` in the duration column) —
the renderer consults the clock through `Pipeline.Duration` for runs
without a finish time, so it is not a pure projection of the state
alone. -/
theorem render_consults_clock_cex :
    Legacy.renderPipelineList 5000000000 mRunning ≠
      Legacy.renderPipelineList 6000000000 mRunning := by
  decide

/-- `Pipeline.Duration` ignores the clock whenever the run has not
started or has a finish time. -/
theorem duration_clock_independent (p : Legacy.Pipeline)
    (hp : p.startTime = none ∨ p.finishTime ≠ none) (now1 now2 : Int) :
    p.duration now1 = p.duration now2 := by
  unfold Legacy.Pipeline.duration
  cases hs : p.startTime with
  | none => rfl
  | some st =>
    cases hf : p.finishTime with
    | none =>
      rcases hp with h | h
      · rw [hs] at h; exact absurd h (by simp)
      · exact absurd hf h
    | some f => rfl

/-- C10 amended: the renderer is a deterministic function of the state
and the current clock instant; the clock enters only through
`Pipeline.Duration` of runs that have started but not finished, so for
every state whose pipelines all have a finish time (or have not started)
the produced frame is identical at any two clock instants. -/
theorem render_clock_independent_amended (now1 now2 : Int) (m : Legacy.LModel)
    (h : ∀ p ∈ m.pipelines, p.startTime = none ∨ p.finishTime ≠ none) :
    Legacy.renderPipelineList now1 m = Legacy.renderPipelineList now2 m := by
  unfold Legacy.renderPipelineList
  split_ifs with h1 h2
  · rfl
  · rfl
  · have hmap : List.map (fun ip => Legacy.renderPipelineRow now1 m.selectedIndex ip.1 ip.2)
        m.pipelines.enum =
        List.map (fun ip => Legacy.renderPipelineRow now2 m.selectedIndex ip.1 ip.2)
        m.pipelines.enum := by
      apply List.map_congr_left
      intro ip hip
      have hm : ip.2 ∈ m.pipelines := by
        have hex : ∃ i, (i, ip.2) ∈ m.pipelines.enum := ⟨ip.1, by simpa using hip⟩
        obtain ⟨i, hi⟩ := hex
        have h3 := List.mem_enumFrom hi
        rw [h3.2.2]
        exact List.getElem_mem _
      unfold Legacy.renderPipelineRow
      rw [duration_clock_independent ip.2 (h ip.2 hm) now1 now2]
    rw [hmap]

/-- Witness for the amended C10: a state whose only pipeline has a finish
time renders identically at clocks 5 s and 9 s. -/
theorem render_clock_independent_amended_witness :
    Legacy.renderPipelineList 5000000000
        { Legacy.initialLModel with
            pipelines := [{ pRunning with finishTime := some 2000000000 }]
            loading := false } =
      Legacy.renderPipelineList 9000000000
        { Legacy.initialLModel with
            pipelines := [{ pRunning with finishTime := some 2000000000 }]
            loading := false } :=
  render_clock_independent_amended 5000000000 9000000000 _ (by decide)
